import Mathlib

set_option maxRecDepth 16384

/-
Verification development for the skill validation / packaging scripts
(scripts/skill_utils.py, scripts/validate_skill.py, scripts/package_skill.py).

Modelling choices:
- Python/YAML values that can appear in parsed frontmatter are modelled by
  the inductive type `YVal` (strings, ints, bools, None, lists, dicts with
  string keys, as produced by yaml.safe_load on a well-formed mapping).
- Python exceptions are modelled with `Except String`: a `.error` value is an
  exception propagating out of the function, a `.ok` value is a normal return.
- Python strings are Lean `String`s; character-level operations work on
  `String.data` (`List Char`).  `str.strip()` is `pyStripStr` (Python's
  whitespace set), `sub in s` is `pyInStr`, `re.search("<[^>]+>", s)` is
  `hasXmlTag s.data`, and the anchored `re.match("^[a-z0-9-]+$", s)` is
  `nameRegexMatch` (including the Python `$`-matches-before-a-final-newline
  behaviour).
- The yaml.safe_load library call is an external dependency of the repository,
  not part of its source; it is passed in as an explicit function parameter
  `yaml : String → Except String YVal` (an `.error` models a yaml.YAMLError,
  whose message the code interpolates).
-/

/-- Values produced by yaml.safe_load for frontmatter entries.  Mapping keys
are modelled as strings (the shape yaml produces for ordinary frontmatter). -/
inductive YVal where
  | str (s : String)
  | int (n : Int)
  | bool (b : Bool)
  | null
  | list (xs : List YVal)
  | dict (entries : List (String × YVal))

/-- Python truthiness test used by `if not x`. -/
def YVal.falsy : YVal → Bool
  | .str s => s == ""
  | .int n => n == 0
  | .bool b => !b
  | .null => true
  | .list xs => xs.isEmpty
  | .dict es => es.isEmpty

/-- Python type name, used in exception messages. -/
def YVal.typeName : YVal → String
  | .str _ => "str"
  | .int _ => "int"
  | .bool _ => "bool"
  | .null => "NoneType"
  | .list _ => "list"
  | .dict _ => "dict"

/-- Whether the value can be hashed (set membership tests raise TypeError on
unhashable values such as lists and dicts). -/
def YVal.hashable : YVal → Bool
  | .list _ => false
  | .dict _ => false
  | _ => true

/-- Python `len(x)`: defined for str/list/dict, a TypeError otherwise. -/
def pyLen : YVal → Except String Nat
  | .str s => .ok s.length
  | .list xs => .ok xs.length
  | .dict es => .ok es.length
  | v => .error ("object of type \x27" ++ v.typeName ++ "\x27 has no len()")

/-- Python `str(x)` for the scalar values the code formats into messages.
(The container cases are approximations; in every code path modelled here a
container value raises before being formatted.) -/
def pyStr : YVal → String
  | .str s => s
  | .int n => toString n
  | .bool b => if b then "True" else "False"
  | .null => "None"
  | .list _ => "[...]"
  | .dict _ => "\x7b...\x7d"

/-- The whitespace characters stripped by Python's str.strip() (those for
which str.isspace() is true). -/
def pyIsSpace (c : Char) : Bool :=
  [' ', '\t', '\n', '\x0b', '\x0c', '\r', '\x1c', '\x1d', '\x1e', '\x1f',
   '\x85', '\xa0', '\u1680', '\u2000', '\u2001', '\u2002', '\u2003', '\u2004',
   '\u2005', '\u2006', '\u2007', '\u2008', '\u2009', '\u200a', '\u2028',
   '\u2029', '\u202f', '\u205f', '\u3000'].contains c

/-- Python `s.strip()`. -/
def pyStripStr (s : String) : String :=
  String.mk (((s.data.dropWhile pyIsSpace).reverse.dropWhile pyIsSpace).reverse)

/-- Contiguous-sublist (infix) test on character lists. -/
def infixChars : List Char → List Char → Bool
  | sub, [] => sub.isEmpty
  | sub, c :: t => sub.isPrefixOf (c :: t) || infixChars sub t

/-- Python `sub in s` for strings: substring containment. -/
def pyInStr (sub s : String) : Bool :=
  infixChars sub.data s.data

/-- The character class `[a-z0-9-]` of the name regex. -/
def isNameChar (c : Char) : Bool :=
  ('a' ≤ c && c ≤ 'z') || ('0' ≤ c && c ≤ '9') || c = '-'

/-- Python `re.match(r"^[a-z0-9-]+$", s) is not None`.  Python's `$` also
matches just before a single trailing newline, hence the `getLast?` case. -/
def nameRegexMatch (s : String) : Bool :=
  let core := if s.data.getLast? == some '\n' then s.data.dropLast else s.data
  !core.isEmpty && core.all isNameChar

/-- Python `re.search(r"<[^>]+>", s) is not None`: the text contains a
XML-tag-shaped substring. -/
def hasXmlTag : List Char → Bool
  | [] => false
  | c :: rest =>
    (c == '<' && !(rest.takeWhile (fun d => d != '>')).isEmpty
       && !(rest.dropWhile (fun d => d != '>')).isEmpty)
    || hasXmlTag rest

/-- skill_utils.validate_skill_name.  The argument is the raw frontmatter
value: non-string values raise (len() for int/bool/None, re.match otherwise),
exactly as in Python. -/
def validate_skill_name (name : YVal) : Except String (Bool × String) :=
  if name.falsy then .ok (false, "Skill name is required")
  else
    match pyLen name with
    | .error e => .error e
    | .ok n =>
      if n > 64 then
        .ok (false, "Skill name too long (" ++ toString n ++ " chars, max 64)")
      else
        match name with
        | .str s =>
          if !(nameRegexMatch s) then
            .ok (false, "Skill name must be lowercase with hyphens only (a-z, 0-9, -)")
          else if pyInStr "anthropic" s || pyInStr "claude" s then
            .ok (false, "Skill name cannot contain \"anthropic\" or \"claude\"")
          else if pyInStr "<" s || pyInStr ">" s then
            .ok (false, "Skill name cannot contain XML tags")
          else .ok (true, "")
        | _ => .error "expected string or bytes-like object"

/-- skill_utils.validate_skill_description.  A truthy non-string value raises
AttributeError at `.strip()`. -/
def validate_skill_description (description : YVal) : Except String (Bool × String) :=
  if description.falsy then .ok (false, "Description is required")
  else
    match description with
    | .str s =>
      if pyStripStr s = "" then .ok (false, "Description cannot be only whitespace")
      else if s.length > 1024 then
        .ok (false, "Description too long (" ++ toString s.length ++ " chars, max 1024)")
      else if hasXmlTag s.data then .ok (false, "Description cannot contain XML tags")
      else .ok (true, "")
    | v => .error ("\x27" ++ v.typeName ++ "\x27 object has no attribute \x27strip\x27")

/-
Filesystem model.  An absolute path is its list of components from the root;
`FS.entries` lists every node physically present (files carry their decoded
UTF-8 content and their executable bit; `binfile` is a regular file whose
bytes are not valid UTF-8; symlinks carry an absolute target).  Resolution
(`resolvePath`) follows chains of symlinks at the looked-up path with fuel
`entries.length + 1`, so a chain that long must contain a cycle (Python's
ELOOP); intermediate-component symlinks are not modelled — directories on the
paths exercised here are plain directories.  `pathExists` / `isFilePath` /
`isDirPath` follow symlinks and return false on failure, as the corresponding
pathlib predicates do.
-/

abbrev AbsPath := List String

inductive FNode where
  | file (content : String) (execBit : Bool)
  | binfile (size : Nat) (execBit : Bool)
  | dir
  | symlink (target : AbsPath)
deriving DecidableEq

structure FS where
  entries : List (AbsPath × FNode)

def FS.lookup (fs : FS) (p : AbsPath) : Option FNode :=
  (fs.entries.find? (fun e => e.1 == p)).map (·.2)

def resolveGo (fs : FS) : Nat → AbsPath → Option AbsPath
  | 0, _ => none
  | Nat.succ fuel, p =>
    match fs.lookup p with
    | some (.symlink t) => resolveGo fs fuel t
    | _ => some p

def resolvePath (fs : FS) (p : AbsPath) : Option AbsPath :=
  resolveGo fs (fs.entries.length + 1) p

def pathExists (fs : FS) (p : AbsPath) : Bool :=
  match resolvePath fs p with
  | some q => (fs.lookup q).isSome
  | none => false

def isFilePath (fs : FS) (p : AbsPath) : Bool :=
  match resolvePath fs p with
  | some q =>
    match fs.lookup q with
    | some (.file _ _) => true
    | some (.binfile _ _) => true
    | _ => false
  | none => false

def isDirPath (fs : FS) (p : AbsPath) : Bool :=
  match resolvePath fs p with
  | some q =>
    match fs.lookup q with
    | some .dir => true
    | _ => false
  | none => false

/-- Models `path.name` in pathlib: the final component. -/
def pathName (p : AbsPath) : String := p.getLastD ""

/-- Models `str(path)` for an absolute path. -/
def pathStr (p : AbsPath) : String := "/" ++ String.intercalate "/" p

/-- skill_utils.format_path with no `relative_to` argument: `str(path)`. -/
def format_path (p : AbsPath) : String := pathStr p

/-- Models `path.stat()` (follows symlinks): st_size and the executable bit
from `st_mode & 0o111`.  Raises for a missing target or a symlink loop. -/
def statSizeExec (fs : FS) (p : AbsPath) : Except String (Nat × Bool) :=
  match resolvePath fs p with
  | some q =>
    match fs.lookup q with
    | some (.file c e) => .ok (c.utf8ByteSize, e)
    | some (.binfile n e) => .ok (n, e)
    | some .dir => .ok (0, true)
    | some (.symlink _) => .error ("unresolved symlink: " ++ pathStr p)
    | none => .error ("No such file or directory: " ++ pathStr p)
  | none => .error ("Too many levels of symbolic links: " ++ pathStr p)

/-- skill_utils.safe_path.  `(base / user_input).resolve()` is modelled by
splitting the user input on `/` and normalizing `..` and `.` lexically (the
symlink side of resolve() acts on the real filesystem, which this helper is
never given); the `relative_to` containment test is a path-prefix test. -/
def normalizeComponents (comps : List String) : List String :=
  comps.foldl
    (fun acc c => if c = ".." then acc.dropLast else if c = "." then acc else acc ++ [c]) []

/-- Split a character list on a separator (Python `str.split(sep)` keeping
empty parts). -/
def splitOnChar (sep : Char) : List Char → List (List Char)
  | [] => [[]]
  | c :: t =>
    let r := splitOnChar sep t
    if c == sep then [] :: r
    else
      match r with
      | h :: t2 => (c :: h) :: t2
      | [] => [[c]]

def safe_path (base : AbsPath) (user_input : String) : Except String AbsPath :=
  let comps := ((splitOnChar '/' user_input.data).map String.mk).filter (fun c => c != "")
  let resolved := normalizeComponents (base ++ comps)
  if base.isPrefixOf resolved then .ok resolved
  else .error ("Path traversal detected: " ++ user_input)

/-- skill_utils.find_skill_file. -/
def find_skill_file (fs : FS) (path : AbsPath) : Option AbsPath :=
  if !(pathExists fs path) then none
  else if isFilePath fs path && pathName path == "SKILL.md" then some path
  else if isDirPath fs path then
    if pathExists fs (path ++ ["SKILL.md"]) then some (path ++ ["SKILL.md"]) else none
  else none

def MAX_FILE_SIZE : Nat := 10485760

/-- skill_utils.read_file_safe (max_size is 10 * 1024 * 1024 at every call
site modelled here). -/
def read_file_safe (fs : FS) (file_path : AbsPath) (max_size : Nat) : Except String String :=
  if !(pathExists fs file_path) then .error ("File not found: " ++ pathStr file_path)
  else if !(isFilePath fs file_path) then .error ("Not a file: " ++ pathStr file_path)
  else
    match statSizeExec fs file_path with
    | .error e => .error e
    | .ok (size, _) =>
      if size > max_size then
        .error ("File too large: " ++ toString size ++ " bytes (max " ++ toString max_size ++ " bytes)")
      else
        match resolvePath fs file_path with
        | some q =>
          match fs.lookup q with
          | some (.file c _) => .ok c
          | _ => .error ("File is not valid UTF-8: " ++ pathStr file_path)
        | none => .error ("Error reading file " ++ pathStr file_path)

/-- First-occurrence split: the characters before the first occurrence of
`delim` in the list, and the characters after it.  This implements the
non-greedy `(.*?)` of the frontmatter regex. -/
def splitFirst (delim : List Char) : List Char → Option (List Char × List Char)
  | [] => none
  | c :: rest =>
    if delim.isPrefixOf (c :: rest) then some ([], (c :: rest).drop delim.length)
    else
      match splitFirst delim rest with
      | some (a, b) => some (c :: a, b)
      | none => none

/-- Models `re.match(r"^---\n(.*?)\n---\n(.*)$", content, re.DOTALL)`: the content
must begin with a `---` line; the frontmatter group ends at the first
`\n---\n`; the rest (greedy `.*` under DOTALL) is the body. -/
def fmMatch (content : String) : Option (String × String) :=
  if "---\n".data.isPrefixOf content.data then
    match splitFirst "\n---\n".data (content.data.drop 4) with
    | some (a, b) => some (String.mk a, String.mk b)
    | none => none
  else none

def malformedFrontmatterText : String :=
  "Invalid frontmatter format. Must be:\n---\nname: skill-name\ndescription: ...\n---\nBody content..."

/-- skill_utils.parse_skill_file. -/
def parse_skill_file (yaml : String → Except String YVal) (content : String) :
    Except String (List (String × YVal) × String) :=
  if pyStripStr content = "" then .error "SKILL.md file is empty"
  else if !("---".data.isPrefixOf content.data) then
    .error "SKILL.md must start with YAML frontmatter (---)"
  else
    match fmMatch content with
    | none => .error malformedFrontmatterText
    | some (fmStr, body) =>
      match yaml fmStr with
      | .error e => .error ("Invalid YAML in frontmatter: " ++ e)
      | .ok (.dict fm) => .ok (fm, pyStripStr body)
      | .ok _ => .error "Frontmatter must be a YAML dictionary/object"

/-- skill_utils.ValidationResult: the accumulated error and warning
messages, in insertion order. -/
structure ValidationResult where
  errors : List String
  warnings : List String
deriving DecidableEq

/-- `ValidationResult.is_valid`: no errors. -/
def ValidationResult.is_valid (r : ValidationResult) : Bool := r.errors.isEmpty

/-- Models `ValidationResult.__str__`. -/
def vres_str (r : ValidationResult) : String :=
  let lines : List String :=
    (if !r.errors.isEmpty then ["❌ Errors:"] ++ r.errors.map (fun e => "  - " ++ e) else []) ++
    (if !r.errors.isEmpty && !r.warnings.isEmpty then [""] else []) ++
    (if !r.warnings.isEmpty then ["⚠️  Warnings:"] ++ r.warnings.map (fun w => "  - " ++ w) else [])
  let lines := if lines.isEmpty then ["✅ Validation passed"] else lines
  String.intercalate "\n" lines

/-- Frontmatter key lookup (`frontmatter["k"]` / `"k" in frontmatter`). -/
def fmLookup (fm : List (String × YVal)) (k : String) : Option YVal :=
  (fm.find? (fun e => e.1 == k)).map (·.2)

/-- validate_skill steps 4-5: the required `name` and `description` fields
(errors; a TypeError from a validator propagates). -/
def name_field_errors (fm : List (String × YVal)) : Except String (List String) :=
  match fmLookup fm "name" with
  | none => .ok ["Required field \"name\" missing from frontmatter"]
  | some v =>
    match validate_skill_name v with
    | .error e => .error e
    | .ok (valid, msg) => .ok (if valid then [] else ["Invalid skill name: " ++ msg])

def desc_field_errors (fm : List (String × YVal)) : Except String (List String) :=
  match fmLookup fm "description" with
  | none => .ok ["Required field \"description\" missing from frontmatter"]
  | some v =>
    match validate_skill_description v with
    | .error e => .error e
    | .ok (valid, msg) => .ok (if valid then [] else ["Invalid description: " ++ msg])

def required_field_errors (fm : List (String × YVal)) : Except String (List String) :=
  match name_field_errors fm with
  | .error e => .error e
  | .ok ne =>
    match desc_field_errors fm with
    | .error e => .error e
    | .ok de => .ok (ne ++ de)

def expectedFields : List String := ["name", "description", "tools", "model"]

/-- Insert into a sorted duplicate-free list (used to model
`sorted(set(...))`). -/
def insertSorted (s : String) : List String → List String
  | [] => [s]
  | t :: ts => if s < t then s :: t :: ts else if s = t then t :: ts else t :: insertSorted s ts

def sortedUnique (l : List String) : List String := l.foldr insertSorted []

/-- validate_skill step 6: the unexpected-frontmatter-fields message, if any
(placement depends on strict mode). -/
def unexpected_fields_msg (fm : List (String × YVal)) : Option String :=
  let unexpected := sortedUnique ((fm.map (·.1)).filter (fun k => !(expectedFields.contains k)))
  if unexpected.isEmpty then none
  else some ("Unexpected frontmatter fields: " ++ String.intercalate ", " unexpected)

def emptyBodyText : String := "SKILL.md body is empty (no content after frontmatter)"

def shortBodyText (n : Nat) : String :=
  "SKILL.md body is very short (" ++ toString n ++ " chars). Consider adding more detailed instructions."

/-- validate_skill step 7: the empty-body message (strict-sensitive) and the
short-body message (always a warning); `elif` makes them exclusive. -/
def body_msgs (body : String) : Option String × Option String :=
  if body = "" then (some emptyBodyText, none)
  else if body.length < 100 then (none, some (shortBodyText body.length))
  else (none, none)

def recommendedSections : List (String × String) :=
  [("when to use", "when to use this skill"),
   ("instruction", "step-by-step instructions"),
   ("example", "concrete examples")]

/-- validate_skill step 8: recommended-section warnings.  `body.lower()` is
modelled with `Char.toLower` (ASCII case folding; the keywords searched for
are ASCII). -/
def section_warnings (body : String) : List String :=
  let body_lower := String.mk (body.data.map Char.toLower)
  recommendedSections.filterMap (fun kd =>
    if !(pyInStr kd.1 body_lower) then some ("Missing recommended section: " ++ kd.2) else none)

def validTools : List String :=
  ["Bash", "Read", "Write", "Edit", "Glob", "Grep", "WebFetch", "WebSearch"]

/-- validate_skill step 9: unknown-tools warning; silently skipped when the
`tools` value is not a string. -/
def tools_warnings (fm : List (String × YVal)) : List String :=
  match fmLookup fm "tools" with
  | some (.str s) =>
    let tools_list := (s.splitOn ",").map pyStripStr
    let invalid_tools := tools_list.filter (fun t => t != "" && !(validTools.contains t))
    if invalid_tools.isEmpty then []
    else ["Unknown tools specified: " ++ String.intercalate ", " invalid_tools]
  | _ => []

/-- validate_skill step 10: unknown-model warning.  `model not in {...}` on an
unhashable value (list/dict) raises TypeError, as in Python. -/
def model_warning (fm : List (String × YVal)) : Except String (List String) :=
  match fmLookup fm "model" with
  | none => .ok []
  | some v =>
    if !v.hashable then .error ("unhashable type: \x27" ++ v.typeName ++ "\x27")
    else
      let valid := match v with
        | .str s => ["sonnet", "opus", "haiku", "inherit"].contains s
        | _ => false
      if valid then .ok []
      else .ok ["Unknown model \x27" ++ pyStr v ++ "\x27. Valid options: haiku, inherit, opus, sonnet"]

/-- Models `dir.glob(pat)` for the patterns `*.py` / `*.md`: the direct children of
`d` whose final component ends with the given suffix (empty when `d` is not a
directory, as pathlib's glob checks is_dir first). -/
def globChildren (fs : FS) (d : AbsPath) (suffix : String) : List AbsPath :=
  if isDirPath fs d then
    (fs.entries.map (·.1)).filter (fun p => p.dropLast == d && (pathName p).endsWith suffix)
  else []

/-- Models `script.stat().st_mode & 0o111 != 0`, following symlinks; raises on
a dangling symlink or symlink loop. -/
def statExec (fs : FS) (p : AbsPath) : Except String Bool :=
  match statSizeExec fs p with
  | .error e => .error e
  | .ok (_, e) => .ok e

/-- The per-script executability loop of validate_skill step 11. -/
def script_exec_warnings (fs : FS) : List AbsPath → Except String (List String)
  | [] => .ok []
  | p :: ps =>
    match statExec fs p with
    | .error e => .error e
    | .ok e =>
      match script_exec_warnings fs ps with
      | .error e2 => .error e2
      | .ok ws =>
        .ok ((if e then [] else
          ["Script " ++ pathName p ++ " is not executable. Consider: chmod +x " ++ pathStr p]) ++ ws)

/-- The references/ check at the end of validate_skill step 11: warn when
references/ exists but holds no .md files. -/
def refsW (fs : FS) (skill_dir : AbsPath) : List String :=
  if pathExists fs (skill_dir ++ ["references"]) &&
      (globChildren fs (skill_dir ++ ["references"]) ".md").isEmpty then
    ["references/ directory exists but contains no .md files"]
  else []

/-- The missing-__init__.py warning of validate_skill step 11. -/
def initW (fs : FS) (skill_dir : AbsPath) : List String :=
  if !(pathExists fs ((skill_dir ++ ["scripts"]) ++ ["__init__.py"])) then
    ["scripts/ directory contains Python files but no __init__.py"]
  else []

/-- validate_skill step 11: directory-structure warnings (scripts/ checks,
then references/ check).  The executability sweep runs only off win32. -/
def directory_warnings (fs : FS) (win32 : Bool) (skill_dir : AbsPath) :
    Except String (List String) :=
  if pathExists fs (skill_dir ++ ["scripts"]) then
    if !(globChildren fs (skill_dir ++ ["scripts"]) ".py").isEmpty then
      if win32 then .ok (initW fs skill_dir ++ refsW fs skill_dir)
      else
        match script_exec_warnings fs (globChildren fs (skill_dir ++ ["scripts"]) ".py") with
        | .error e => .error e
        | .ok ws => .ok (initW fs skill_dir ++ ws ++ refsW fs skill_dir)
    else .ok (refsW fs skill_dir)
  else .ok (refsW fs skill_dir)

/-- validate_skill.validate_skill.  `win32` models `sys.platform == "win32"`.
An `.error` is an exception escaping validate_skill (only TypeErrors from the
field validators / model check and OSErrors from the stat loop can do so);
environment failures in steps 1-3 return a one-error result instead. -/
def validate_skill (yaml : String → Except String YVal) (fs : FS) (win32 : Bool)
    (skill_path : AbsPath) (strict : Bool) : Except String ValidationResult :=
  match find_skill_file fs skill_path with
  | none => .ok ⟨["SKILL.md not found in " ++ format_path skill_path], []⟩
  | some skill_file =>
    match read_file_safe fs skill_file MAX_FILE_SIZE with
    | .error e => .ok ⟨[e], []⟩
    | .ok content =>
      match parse_skill_file yaml content with
      | .error e => .ok ⟨[e], []⟩
      | .ok (frontmatter, body) =>
        match required_field_errors frontmatter with
        | .error e => .error e
        | .ok reqErrs =>
          match model_warning frontmatter with
          | .error e => .error e
          | .ok modelW =>
            match directory_warnings fs win32 skill_file.dropLast with
            | .error e => .error e
            | .ok dirW =>
              let unexp := (unexpected_fields_msg frontmatter).toList
              let bm := body_msgs body
              let warnsAfter := (bm.2).toList ++ section_warnings body ++
                tools_warnings frontmatter ++ modelW ++ dirW
              if strict then
                .ok ⟨reqErrs ++ unexp ++ (bm.1).toList, warnsAfter⟩
              else
                .ok ⟨reqErrs, unexp ++ (bm.1).toList ++ warnsAfter⟩

/-
Packaging (package_skill.py).  I/O performed while packaging is recorded in
an event trace: `.validated` marks the validate-first pass (which itself
reads the skill file), `.readFile` marks the packager's own successful read
of the header+body file, and `.wroteZip` / `.wroteDir` mark the creation of
the output artifact.  A run returns its result together with the events that
happened before it returned or raised.
-/

inductive PEvent where
  | validated
  | readFile (p : AbsPath)
  | wroteZip (out : AbsPath)
  | wroteDir (out : AbsPath)
deriving DecidableEq

def PEvent.isWrite : PEvent → Bool
  | .wroteZip _ => true
  | .wroteDir _ => true
  | _ => false

structure Manifest where
  name : YVal
  description : YVal
  version : String
  packaged_at : String
  format : String
  format_version : String
  tools : Option YVal
  model : Option YVal
  includes_scripts : Bool
  includes_references : Bool

/-- Models `any(p.iterdir())`: raises NotADirectoryError when `p` resolves to a
non-directory (error text approximates the OSError message). -/
def dirHasEntries (fs : FS) (p : AbsPath) : Except String Bool :=
  match resolvePath fs p with
  | some q =>
    match fs.lookup q with
    | some .dir => .ok (!((fs.entries.map (·.1)).filter (fun c => c.dropLast == q)).isEmpty)
    | some _ => .error ("Not a directory: " ++ pathStr p)
    | none => .error ("No such file or directory: " ++ pathStr p)
  | none => .error ("Too many levels of symbolic links: " ++ pathStr p)

/-- package_skill.create_manifest.  `now` is `datetime.utcnow().isoformat()`,
supplied by the environment. -/
def create_manifest (fs : FS) (now : String) (skill_dir : AbsPath)
    (frontmatter : List (String × YVal)) : Except String Manifest :=
  let scripts_dir := skill_dir ++ ["scripts"]
  let references_dir := skill_dir ++ ["references"]
  match (if pathExists fs scripts_dir then dirHasEntries fs scripts_dir else .ok false) with
  | .error e => .error e
  | .ok inc_scripts =>
    match (if pathExists fs references_dir then dirHasEntries fs references_dir else .ok false) with
    | .error e => .error e
    | .ok inc_refs =>
      .ok ⟨(fmLookup frontmatter "name").getD (.str ""),
           (fmLookup frontmatter "description").getD (.str ""),
           "1.0.0", now ++ "Z", "claude-skill", "1.0",
           fmLookup frontmatter "tools", fmLookup frontmatter "model",
           inc_scripts, inc_refs⟩

/-- Models `dir.rglob("*")`: every entry physically below `d` (pathlib's recursive
wildcard does not follow directory symlinks), in directory-walk order,
modelled as entry order. -/
def rglob (fs : FS) (d : AbsPath) : List AbsPath :=
  (fs.entries.map (·.1)).filter (fun p => d.isPrefixOf p && p != d)

/-- package_skill.collect_files.  Note the `is_file()` filter applies only to
the scripts/references walks; SKILL.md and README.md are appended after a
bare `exists()` check. -/
def collect_files (fs : FS) (skill_dir : AbsPath) : Except String (List AbsPath) :=
  let skill_file := skill_dir ++ ["SKILL.md"]
  if !(pathExists fs skill_file) then
    .error ("SKILL.md not found in " ++ pathStr skill_dir)
  else
    let scripts_dir := skill_dir ++ ["scripts"]
    let sfiles := if pathExists fs scripts_dir && isDirPath fs scripts_dir then
        (rglob fs scripts_dir).filter (isFilePath fs) else []
    let references_dir := skill_dir ++ ["references"]
    let rfiles := if pathExists fs references_dir && isDirPath fs references_dir then
        (rglob fs references_dir).filter (isFilePath fs) else []
    let readme := skill_dir ++ ["README.md"]
    let mfiles := if pathExists fs readme then [readme] else []
    .ok (skill_file :: (sfiles ++ rfiles ++ mfiles))

/-- package_skill.package_as_zip: collects the files (a collect failure
propagates before the archive is opened) and writes the archive. -/
def package_as_zip (fs : FS) (skill_dir output_path : AbsPath)
    (_manifest : Option Manifest) : Except String Unit × List PEvent :=
  match collect_files fs skill_dir with
  | .error e => (.error e, [])
  | .ok _ => (.ok (), [.wroteZip output_path])

/-- package_skill.package_as_directory. -/
def package_as_directory (fs : FS) (skill_dir output_path : AbsPath)
    (_manifest : Option Manifest) : Except String Unit × List PEvent :=
  match collect_files fs skill_dir with
  | .error e => (.error e, [])
  | .ok _ => (.ok (), [.wroteDir output_path])

/-- The validate-first block of package_skill.package_skill: runs the
Validation Engine non-strict and fails when the result is invalid. -/
def package_validate_check (yaml : String → Except String YVal) (fs : FS) (win32 : Bool)
    (skill_dir : AbsPath) (validate : Bool) : Except String Unit :=
  if validate then
    match validate_skill yaml fs win32 skill_dir false with
    | .error e => .error e
    | .ok result =>
      if !result.is_valid then
        .error ("Skill validation failed:\n" ++ vres_str result ++
                "\n\nUse --no-validate to skip validation")
      else .ok ()
  else .ok ()

/-- The manifest block of package_skill.package_skill. -/
def package_manifest_step (fs : FS) (now : String) (skill_dir : AbsPath)
    (frontmatter : List (String × YVal)) (include_manifest : Bool) :
    Except String (Option Manifest) :=
  if include_manifest then (create_manifest fs now skill_dir frontmatter).map some
  else .ok none

/-- Models `frontmatter.get("name", skill_dir.name)` formatted with str(). -/
def packageSkillName (frontmatter : List (String × YVal)) (skill_dir : AbsPath) : String :=
  match fmLookup frontmatter "name" with
  | some v => pyStr v
  | none => pathName skill_dir

/-- The derived output location (a path relative to the working directory,
modelled as a root-level path). -/
def packageOut (output : Option AbsPath) (format : String)
    (frontmatter : List (String × YVal)) (skill_dir : AbsPath) : AbsPath :=
  match output with
  | some o => o
  | none =>
    if format == "zip" then [packageSkillName frontmatter skill_dir ++ ".zip"]
    else [packageSkillName frontmatter skill_dir]

/-- package_skill.package_skill.  Returns the output location (or the
exception) together with the I/O event trace. -/
def package_skill (yaml : String → Except String YVal) (fs : FS) (win32 : Bool)
    (now : String) (skill_path : AbsPath) (output : Option AbsPath) (format : String)
    (validate : Bool) (include_manifest : Bool) : Except String AbsPath × List PEvent :=
  match find_skill_file fs skill_path with
  | none => (.error ("SKILL.md not found in " ++ format_path skill_path), [])
  | some skill_file =>
    match package_validate_check yaml fs win32 skill_file.dropLast validate with
    | .error e => (.error e, if validate then [.validated] else [])
    | .ok _ =>
      match read_file_safe fs skill_file MAX_FILE_SIZE with
      | .error e => (.error e, if validate then [.validated] else [])
      | .ok content =>
        match parse_skill_file yaml content with
        | .error e =>
          (.error e, (if validate then [.validated] else []) ++ [.readFile skill_file])
        | .ok (frontmatter, _) =>
          match package_manifest_step fs now skill_file.dropLast frontmatter
              include_manifest with
          | .error e =>
            (.error e, (if validate then [.validated] else []) ++ [.readFile skill_file])
          | .ok manifest =>
            if format == "zip" then
              match package_as_zip fs skill_file.dropLast
                  (packageOut output format frontmatter skill_file.dropLast) manifest with
              | (.error e, evs) =>
                (.error e, (if validate then [.validated] else [])
                  ++ [.readFile skill_file] ++ evs)
              | (.ok _, evs) =>
                (.ok (packageOut output format frontmatter skill_file.dropLast),
                 (if validate then [.validated] else []) ++ [.readFile skill_file] ++ evs)
            else if format == "directory" then
              match package_as_directory fs skill_file.dropLast
                  (packageOut output format frontmatter skill_file.dropLast) manifest with
              | (.error e, evs) =>
                (.error e, (if validate then [.validated] else [])
                  ++ [.readFile skill_file] ++ evs)
              | (.ok _, evs) =>
                (.ok (packageOut output format frontmatter skill_file.dropLast),
                 (if validate then [.validated] else []) ++ [.readFile skill_file] ++ evs)
            else
              (.error ("Unknown format: " ++ format),
               (if validate then [.validated] else []) ++ [.readFile skill_file])

/-
Spec-side predicates used in theorem statements, and the concrete worlds
used by witnesses and counterexamples.  Each world supplies the yaml
parameter as a small table agreeing with PyYAML on the one frontmatter
string that world contains.
-/

/-- The message starts with the unexpected-frontmatter-fields prefix. -/
def uPreB (m : String) : Bool :=
  "Unexpected frontmatter fields: ".data.isPrefixOf m.data

/-- The two strict-sensitive messages of validate_skill. -/
def escalatable (m : String) : Bool :=
  (m == emptyBodyText) || uPreB m

/-- The name validator returned its angle-bracket failure. -/
def xmlTagFailure (r : Except String (Bool × String)) : Bool :=
  match r with
  | .ok (false, m) => m == "Skill name cannot contain XML tags"
  | _ => false

/-- The frontmatter value at `k` is a string or the key is absent. -/
def strOrAbsent (fm : List (String × YVal)) (k : String) : Bool :=
  match fmLookup fm k with
  | none => true
  | some (.str _) => true
  | some _ => false

/-- The frontmatter value at `k` is hashable or the key is absent. -/
def hashableOrAbsent (fm : List (String × YVal)) (k : String) : Bool :=
  match fmLookup fm k with
  | none => true
  | some v => v.hashable

/-- stat() on the path would succeed (no dangling symlink / symlink loop). -/
def statOkB (fs : FS) (p : AbsPath) : Bool :=
  match statExec fs p with
  | .ok _ => true
  | .error _ => false

/-- After symlink resolution the path denotes a location at or below
`base`. -/
def resolvesUnder (fs : FS) (base p : AbsPath) : Bool :=
  match resolvePath fs p with
  | some q => base.isPrefixOf q
  | none => false

/-- The path denotes a regular file after symlink resolution. -/
def isRegularAfterResolve (fs : FS) (p : AbsPath) : Bool := isFilePath fs p

/-- The content has the exact shape delimiter line / header block /
delimiter line / body. -/
def headerShaped (content : String) : Prop :=
  ∃ h b : String, content = "---\n" ++ h ++ "\n---\n" ++ b

def hasWriteEvent (evs : List PEvent) : Bool := evs.any PEvent.isWrite

/-- A well-formed skill body containing all recommended sections,
length 134 ≥ 100. -/
def bodyA : String :=
  "When to use this skill: whenever you need it. Instructions: follow each instruction step carefully. Example: run it on a sample input."

def fmA : String := "name: my-skill\ndescription: Does a thing."

def contentA : String := "---\n" ++ fmA ++ "\n---\n" ++ bodyA

def yamlA : String → Except String YVal := fun s =>
  if s == fmA then
    .ok (.dict [("name", .str "my-skill"), ("description", .str "Does a thing.")])
  else .error "unexpected frontmatter"

/-- A fully valid skill directory. -/
def fsA : FS := ⟨[(["s"], .dir), (["s", "SKILL.md"], .file contentA true)]⟩

/-- World for C2's counterexample: the frontmatter name is the int 123
(PyYAML parses `name: 123` to an int). -/
def fm2 : String := "name: 123"

def content2 : String := "---\n" ++ fm2 ++ "\n---\nbody"

def fs2 : FS := ⟨[(["s"], .dir), (["s", "SKILL.md"], .file content2 true)]⟩

def yaml2 : String → Except String YVal := fun s =>
  if s == fm2 then .ok (.dict [("name", .int 123)]) else .error "unexpected frontmatter"

/-- World for C8's amended claim: the only problem is the unrecognized
frontmatter field `extra`. -/
def fm8 : String := "name: my-skill\ndescription: Does a thing.\nextra: 1"

def content8 : String := "---\n" ++ fm8 ++ "\n---\n" ++ bodyA

def fs8 : FS := ⟨[(["s"], .dir), (["s", "SKILL.md"], .file content8 true)]⟩

def yaml8 : String → Except String YVal := fun s =>
  if s == fm8 then
    .ok (.dict [("name", .str "my-skill"), ("description", .str "Does a thing."),
                ("extra", .int 1)])
  else .error "unexpected frontmatter"

/-- World for C8's counterexample: the only problem is the missing required
`name` field. -/
def fm84 : String := "description: Does a thing."

def content84 : String := "---\n" ++ fm84 ++ "\n---\n" ++ bodyA

def fs84 : FS := ⟨[(["s"], .dir), (["s", "SKILL.md"], .file content84 true)]⟩

def yaml84 : String → Except String YVal := fun s =>
  if s == fm84 then .ok (.dict [("description", .str "Does a thing.")])
  else .error "unexpected frontmatter"

/-- World for C1: scripts/evil is a symlink to a regular file outside the
skill directory. -/
def fsC1 : FS :=
  ⟨[(["skill"], .dir), (["skill", "SKILL.md"], .file contentA true),
    (["skill", "scripts"], .dir),
    (["skill", "scripts", "evil"], .symlink ["outside", "secret"]),
    (["outside"], .dir), (["outside", "secret"], .file "top secret" false)]⟩

/-- World for C4's counterexample: SKILL.md exists but is a directory. -/
def fsC4 : FS := ⟨[(["s"], .dir), (["s", "SKILL.md"], .dir)]⟩

/-- yaml table for C7's witness. -/
def yaml7 : String → Except String YVal := fun s =>
  if s == "name: test" then .ok (.dict [("name", .str "test")])
  else .error "unexpected frontmatter"

/-
Helper lemmas.
-/

theorem listInfix_singleton (a : Char) (l : List Char) : infixChars [a] l = l.contains a := by
  induction l with
  | nil => rfl
  | cons b t ih =>
    simp only [infixChars, List.isPrefixOf, List.contains, List.elem, ih]
    cases h : a == b <;> simp [List.isPrefixOf, List.contains, List.elem, h]

theorem pyStrip_eq_empty_all {s : String} (h : pyStripStr s = "") :
    s.data.all pyIsSpace = true := by
  unfold pyStripStr at h
  have hl : ((s.data.dropWhile pyIsSpace).reverse.dropWhile pyIsSpace).reverse = [] := by
    simpa using String.ext_iff.mp h
  rw [List.reverse_eq_nil_iff, List.dropWhile_eq_nil_iff] at hl
  rw [List.all_eq_true]
  intro x hx
  have hsplit := List.takeWhile_append_dropWhile pyIsSpace s.data
  rw [← hsplit] at hx
  rcases List.mem_append.mp hx with h1 | h2
  · exact List.mem_takeWhile_imp h1
  · exact hl x (List.mem_reverse.mpr h2)

theorem nameRegex_of_all {s : String} (h1 : s.data ≠ [])
    (h2 : s.data.all isNameChar = true) : nameRegexMatch s = true := by
  unfold nameRegexMatch
  have hn : (s.data.getLast? == some '\n') = false := by
    rw [beq_eq_false_iff_ne]
    intro hl
    have hmem : '\n' ∈ s.data := List.mem_of_mem_getLast? hl
    have := List.all_eq_true.mp h2 _ hmem
    simp [isNameChar] at this
  simp only [hn, Bool.false_eq_true, if_neg, ite_false]
  simp [List.isEmpty_iff, h1, h2]

theorem nameRegex_no_char {s : String} {c : Char} (hc1 : isNameChar c = false)
    (hc2 : c ≠ '\n') (h : nameRegexMatch s = true) : s.data.contains c = false := by
  unfold nameRegexMatch at h
  by_cases hl : (s.data.getLast? == some '\n') = true
  · simp only [hl, if_true, Bool.and_eq_true] at h
    have hlast : s.data.getLast? = some '\n' := by
      have := (beq_iff_eq).mp hl; exact this
    have hne : s.data ≠ [] := by
      intro hnil; rw [hnil] at hlast; simp at hlast
    have hgl : s.data.getLast hne = '\n' := by
      have := List.getLast?_eq_getLast s.data hne
      rw [hlast] at this
      exact (Option.some.injEq _ _).mp this.symm
    have hdecomp := List.dropLast_append_getLast hne
    by_cases hmem : c ∈ s.data
    · rw [← hdecomp] at hmem
      rcases List.mem_append.mp hmem with hm1 | hm2
      · have := List.all_eq_true.mp h.2 _ hm1
        rw [hc1] at this; cases this
      · rw [hgl] at hm2
        simp at hm2
        exact absurd hm2 hc2
    · simpa using hmem
  · simp only [Bool.not_eq_true] at hl
    simp only [hl, Bool.false_eq_true, if_neg, ite_false, Bool.and_eq_true] at h
    by_cases hmem : c ∈ s.data
    · have := List.all_eq_true.mp h.2 _ hmem
      rw [hc1] at this; cases this
    · simpa using hmem

theorem isPrefixOf_append_false {p lit : List Char} (rest : List Char) (n : Nat)
    (h1 : n ≤ lit.length) (h2 : n ≤ p.length) (h3 : lit.take n ≠ p.take n) :
    p.isPrefixOf (lit ++ rest) = false := by
  cases hp : p.isPrefixOf (lit ++ rest)
  · rfl
  · exfalso
    rcases (List.isPrefixOf_iff_prefix.mp hp) with ⟨t, ht⟩
    have h4 : (p ++ t).take n = p.take n := List.take_append_of_le_length h2
    have h5 : (lit ++ rest).take n = lit.take n := List.take_append_of_le_length h1
    rw [ht, h5] at h4
    exact h3 h4

theorem beq_append_ne (lit rest b : String) (n : Nat) (h1 : n ≤ lit.data.length)
    (h3 : lit.data.take n ≠ b.data.take n) : ((lit ++ rest) == b) = false := by
  rw [beq_eq_false_iff_ne]
  intro h
  have hd : (lit ++ rest).data = b.data := String.ext_iff.mp h
  rw [String.data_append] at hd
  have : (lit.data ++ rest.data).take n = b.data.take n := by rw [hd]
  rw [List.take_append_of_le_length h1] at this
  exact h3 this

theorem uPreB_append_false (lit rest : String) (n : Nat) (h1 : n ≤ lit.data.length)
    (h2 : n ≤ 31)
    (h3 : lit.data.take n ≠ ("Unexpected frontmatter fields: ").data.take n) :
    uPreB (lit ++ rest) = false := by
  unfold uPreB
  rw [String.data_append]
  exact isPrefixOf_append_false rest.data n h1 (by simpa using h2) h3

theorem escalatable_append_false (lit rest : String) (n₁ n₂ : Nat)
    (h1 : n₁ ≤ lit.data.length) (h2 : lit.data.take n₁ ≠ emptyBodyText.data.take n₁)
    (h3 : n₂ ≤ lit.data.length) (h4 : n₂ ≤ 31)
    (h5 : lit.data.take n₂ ≠ ("Unexpected frontmatter fields: ").data.take n₂) :
    escalatable (lit ++ rest) = false := by
  unfold escalatable
  rw [beq_append_ne lit rest emptyBodyText n₁ h1 h2, uPreB_append_false lit rest n₂ h3 h4 h5]
  rfl

/-- C5 counterexample: the whitespace-only string " " is non-empty, has at
most 1024 characters and no XML-tag-shaped substring, yet the description
validator reports it invalid (whitespace-only), so the claim as stated
fails. -/
theorem c5_claim_counterexample :
    validate_skill_description (.str " ") = .ok (false, "Description cannot be only whitespace")
    ∧ (" " : String).length ≤ 1024 ∧ hasXmlTag (" " : String).data = false :=
  ⟨rfl, by decide, rfl⟩

/-- C5 (amended): every description that contains at least one
non-whitespace character (hence is non-empty and not whitespace-only), has
length at most 1024, and contains no XML-tag-shaped substring is accepted by
the description validator with an empty message. -/
theorem c5_descr_valid (s : String) (h1 : s.data.all pyIsSpace = false)
    (h2 : s.length ≤ 1024) (h3 : hasXmlTag s.data = false) :
    validate_skill_description (.str s) = .ok (true, "") := by
  have hne : s ≠ "" := by
    intro h
    rw [h] at h1
    simp at h1
  have hstrip : ¬ (pyStripStr s = "") := by
    intro h
    rw [pyStrip_eq_empty_all h] at h1
    cases h1
  have hfal : (YVal.str s).falsy = false := by
    simp [YVal.falsy, hne]
  unfold validate_skill_description
  rw [hfal]
  simp only [Bool.false_eq_true, if_false, if_neg hstrip, h3]
  rw [if_neg (by omega)]

/-- C9: every name of length 1 to 64 composed only of lowercase letters,
digits and hyphens that contains neither reserved substring nor an angle
bracket is accepted by the name validator with an empty message. -/
theorem c9_name_valid (s : String) (h0 : 1 ≤ s.length) (h1 : s.length ≤ 64)
    (h2 : s.data.all isNameChar = true)
    (h3 : pyInStr "anthropic" s = false) (h4 : pyInStr "claude" s = false)
    (h5 : pyInStr "<" s = false) (h6 : pyInStr ">" s = false) :
    validate_skill_name (.str s) = .ok (true, "") := by
  have hne : s ≠ "" := by
    intro h
    rw [h] at h0
    simp [String.length] at h0
  have hdne : s.data ≠ [] := by
    intro h
    exact hne (String.ext_iff.mpr (by simpa using h))
  have hfal : (YVal.str s).falsy = false := by
    simp [YVal.falsy, hne]
  unfold validate_skill_name
  rw [hfal]
  simp only [Bool.false_eq_true, if_false, pyLen]
  rw [if_neg (by omega)]
  rw [nameRegex_of_all hdne h2]
  simp only [Bool.not_true, Bool.false_eq_true, if_false, h3, h4, h5, h6, Bool.or_self,
    Bool.or_false, Bool.false_or]

/-- C9 witness: the name "my-skill" satisfies all hypotheses and is
accepted. -/
theorem c9_name_valid_witness :
    validate_skill_name (.str "my-skill") = .ok (true, "") :=
  c9_name_valid "my-skill" (by decide) (by decide) (by decide) (by decide) (by decide)
    (by decide) (by decide)

/-- C10: the name validator never returns its angle-bracket ("XML tags")
failure: any string reaching that check has passed the `[a-z0-9-]+` regex,
whose character class contains neither angle bracket. -/
theorem c10_xml_branch_unreachable (s : String) :
    xmlTagFailure (validate_skill_name (.str s)) = false := by
  unfold validate_skill_name
  by_cases hf : (YVal.str s).falsy = true
  · rw [if_pos hf]; rfl
  · rw [if_neg hf]
    simp only [pyLen]
    by_cases h64 : s.length > 64
    · rw [if_pos h64]
      unfold xmlTagFailure
      exact beq_append_ne "Skill name too long (" _ _ 12 (by decide) (by decide)
    · rw [if_neg h64]
      by_cases hre : nameRegexMatch s = true
      · have hlt : pyInStr "<" s = false := by
          unfold pyInStr
          rw [listInfix_singleton]
          exact nameRegex_no_char (by decide) (by decide) hre
        have hgt : pyInStr ">" s = false := by
          unfold pyInStr
          rw [listInfix_singleton]
          exact nameRegex_no_char (by decide) (by decide) hre
        rw [hre]
        simp only [Bool.not_true, Bool.false_eq_true, if_false, hlt, hgt, Bool.or_self]
        by_cases hres : (pyInStr "anthropic" s || pyInStr "claude" s) = true
        · rw [if_pos hres]; rfl
        · rw [if_neg hres]
          rfl
      · have : nameRegexMatch s = false := by
          cases h : nameRegexMatch s
          · rfl
          · exact absurd h hre
        rw [this]
        rfl

/-- C1: the path-traversal invariant is not enforced by the file collector:
in `fsC1` the entry scripts/evil is a symlink whose resolution lies outside
the skill directory, yet collect_files includes it (and the packer would
read/copy it); the safe_path primitive exists and does reject a
`..`-escaping input, but no collector or writer calls it. -/
theorem c1_traversal_unenforced :
    collect_files fsC1 ["skill"] = .ok [["skill", "SKILL.md"], ["skill", "scripts", "evil"]]
    ∧ resolvesUnder fsC1 ["skill"] ["skill", "scripts", "evil"] = false
    ∧ safe_path ["skills"] "../etc/passwd" = .error "Path traversal detected: ../etc/passwd" :=
  ⟨rfl, rfl, rfl⟩

/-- C4 counterexample: in `fsC4` the header+body file SKILL.md exists but is
a directory; collect_files nevertheless returns it in the FileSet (only a
bare exists() check guards it), so the sequence does not contain only
regular files. -/
theorem c4_claim_counterexample :
    collect_files fsC4 ["s"] = .ok [["s", "SKILL.md"]]
    ∧ isRegularAfterResolve fsC4 ["s", "SKILL.md"] = false :=
  ⟨rfl, rfl⟩

theorem listInfix_of_isPrefixOf {sub l : List Char} (h : sub.isPrefixOf l = true) :
    infixChars sub l = true := by
  cases l with
  | nil =>
    cases sub with
    | nil => rfl
    | cons c t => simp [List.isPrefixOf] at h
  | cons c t => simp [infixChars, h]

theorem listInfix_of_parts (δ X Y : List Char) : infixChars δ (X ++ δ ++ Y) = true := by
  induction X with
  | nil =>
    simp only [List.nil_append]
    cases hd : δ ++ Y with
    | nil =>
      have hδe : δ = [] := by
        cases δ with
        | nil => rfl
        | cons a b => simp at hd
      rw [hδe]
      rfl
    | cons c t =>
      have hp : δ.isPrefixOf (c :: t) = true := by
        rw [← hd]
        exact List.isPrefixOf_iff_prefix.mpr (List.prefix_append δ Y)
      simp [infixChars, hp]
  | cons c X' ih =>
    rw [List.cons_append]
    simp only [infixChars, List.append_eq]
    rw [ih]
    simp

theorem prefix_of_append_of_le_length {p X : List Char} (Y : List Char)
    (hl : p.length ≤ X.length) (h : p <+: X ++ Y) : p <+: X := by
  have h1 : p = (X ++ Y).take p.length := List.prefix_iff_eq_take.mp h
  rw [List.take_append_of_le_length hl] at h1
  rw [h1]
  exact List.take_prefix _ _

theorem splitFirst_sound {δ : List Char} {l a b : List Char}
    (h : splitFirst δ l = some (a, b)) : l = a ++ δ ++ b := by
  induction l generalizing a b with
  | nil => simp [splitFirst] at h
  | cons c rest ih =>
    rw [splitFirst] at h
    by_cases hp : δ.isPrefixOf (c :: rest) = true
    · rw [if_pos hp] at h
      rcases List.isPrefixOf_iff_prefix.mp hp with ⟨t, ht⟩
      injection h with h'
      injection h' with ha hb
      subst ha
      have hdrop : (c :: rest).drop δ.length = t := by
        rw [← ht]
        exact List.drop_left δ t
      rw [hdrop] at hb
      subst hb
      simp [← ht]
    · rw [if_neg hp] at h
      cases hs : splitFirst δ rest with
      | none => rw [hs] at h; cases h
      | some ab =>
        rw [hs] at h
        obtain ⟨a', b'⟩ := ab
        injection h with h'
        injection h' with ha hb
        subst hb
        have := ih hs
        rw [← ha, this]
        simp

theorem splitFirst_first {δ : List Char} (hδ : δ ≠ []) (l₁ l₂ : List Char)
    (h : infixChars δ (l₁ ++ δ.dropLast) = false) :
    splitFirst δ (l₁ ++ δ ++ l₂) = some (l₁, l₂) := by
  induction l₁ with
  | nil =>
    simp only [List.nil_append]
    cases hδl : δ ++ l₂ with
    | nil =>
      exfalso
      cases δ with
      | nil => exact hδ rfl
      | cons a b => simp at hδl
    | cons c t =>
      have hp : δ.isPrefixOf (c :: t) = true := by
        rw [← hδl]
        exact List.isPrefixOf_iff_prefix.mpr (List.prefix_append δ l₂)
      rw [splitFirst, if_pos hp, ← hδl, List.drop_left δ l₂]
  | cons c l₁' ih =>
    have hsplit : infixChars δ (c :: (l₁' ++ δ.dropLast)) = false := by
      rw [← List.cons_append]
      exact h
    rw [infixChars, Bool.or_eq_false_iff] at hsplit
    obtain ⟨h1, h2⟩ := hsplit
    have hδeq : δ.dropLast ++ [δ.getLast hδ] = δ := List.dropLast_append_getLast hδ
    have hcond : δ.isPrefixOf (c :: (l₁' ++ δ ++ l₂)) = false := by
      cases hc : δ.isPrefixOf (c :: (l₁' ++ δ ++ l₂)) with
      | false => rfl
      | true =>
        exfalso
        have hpre : δ <+: (c :: (l₁' ++ δ.dropLast)) ++ ([δ.getLast hδ] ++ l₂) := by
          have heq : (c :: (l₁' ++ δ.dropLast)) ++ ([δ.getLast hδ] ++ l₂) =
              c :: (l₁' ++ δ ++ l₂) := by
            have : l₁' ++ δ.dropLast ++ ([δ.getLast hδ] ++ l₂) = l₁' ++ δ ++ l₂ := by
              rw [List.append_assoc l₁', ← List.append_assoc δ.dropLast, hδeq,
                ← List.append_assoc]
            simpa using this
          rw [heq]
          exact List.isPrefixOf_iff_prefix.mp hc
        have hlen : δ.length ≤ (c :: (l₁' ++ δ.dropLast)).length := by
          have hδl : δ.length = δ.dropLast.length + 1 := by
            cases δ with
            | nil => exact absurd rfl hδ
            | cons a b => simp
          rw [hδl]
          simp only [List.length_cons, List.length_append]
          omega
        have hpX := prefix_of_append_of_le_length _ hlen hpre
        have hpB := List.isPrefixOf_iff_prefix.mpr hpX
        rw [h1] at hpB
        cases hpB
    have hgoal : splitFirst δ (c :: (l₁' ++ δ ++ l₂)) = some (c :: l₁', l₂) := by
      rw [splitFirst, if_neg (by rw [hcond]; exact Bool.false_ne_true), ih h2]
    rw [← List.cons_append] at hgoal
    exact hgoal

theorem pyStrip_ne_of_mem {s : String} {c : Char} (hc : pyIsSpace c = false)
    (hm : c ∈ s.data) : ¬ (pyStripStr s = "") := by
  intro h
  have := List.all_eq_true.mp (pyStrip_eq_empty_all h) c hm
  rw [hc] at this
  cases this

theorem fmMatch_some (h b : String)
    (hinf : infixChars ("\n---\n".data) ((h ++ "\n---").data) = false) :
    fmMatch ("---\n" ++ h ++ "\n---\n" ++ b) = some (h, b) := by
  have hdata : ("---\n" ++ h ++ "\n---\n" ++ b).data =
      "---\n".data ++ (h.data ++ "\n---\n".data ++ b.data) := by
    simp [String.data_append]
  unfold fmMatch
  have hp : "---\n".data.isPrefixOf ("---\n" ++ h ++ "\n---\n" ++ b).data = true := by
    rw [hdata]
    exact List.isPrefixOf_iff_prefix.mpr (List.prefix_append _ _)
  rw [if_pos hp, hdata]
  have hdrop : ("---\n".data ++ (h.data ++ "\n---\n".data ++ b.data)).drop 4 =
      h.data ++ "\n---\n".data ++ b.data := by
    have : (4 : Nat) = "---\n".data.length := by decide
    rw [this]
    exact List.drop_left _ _
  rw [hdrop]
  have hfirst : splitFirst ("\n---\n".data) (h.data ++ "\n---\n".data ++ b.data) =
      some (h.data, b.data) := by
    apply splitFirst_first (by decide)
    have : (h ++ "\n---").data = h.data ++ ("\n---\n".data).dropLast := by
      simp [String.data_append]
    rw [← this]
    exact hinf
  rw [hfirst]

theorem fmMatch_shaped {content : String} {a b : String}
    (h : fmMatch content = some (a, b)) : headerShaped content := by
  unfold fmMatch at h
  by_cases hp : "---\n".data.isPrefixOf content.data = true
  · rw [if_pos hp] at h
    cases hs : splitFirst ("\n---\n".data) (content.data.drop 4) with
    | none => rw [hs] at h; cases h
    | some ab =>
      obtain ⟨a2, b2⟩ := ab
      rw [hs] at h
      injection h with h2
      injection h2 with ha hb
      have hsound := splitFirst_sound hs
      rcases List.isPrefixOf_iff_prefix.mp hp with ⟨t, ht⟩
      have htd : content.data.drop 4 = t := by
        rw [← ht]
        have h4 : (4 : Nat) = "---\n".data.length := by decide
        rw [h4]
        exact List.drop_left _ _
      refine ⟨a, b, ?_⟩
      rw [String.ext_iff]
      simp only [String.data_append]
      rw [← ha, ← hb, ← ht]
      have ht2 : t = a2 ++ "\n---\n".data ++ b2 := by rw [← htd, hsound]
      rw [ht2]
      simp
  · rw [if_neg hp] at h
    cases h

theorem fmMatch_none {content : String} (h1 : ¬ headerShaped content) :
    fmMatch content = none := by
  cases hm : fmMatch content with
  | none => rfl
  | some ab =>
    obtain ⟨a, b⟩ := ab
    exact absurd (fmMatch_shaped hm) h1

/-- C7: (1) for input of the exact shape delimiter line, header block (the
first delimiter-terminated block: the delimiter does not occur across the
header and the closing delimiter's start), delimiter line, body, the parser
matches non-greedily — the body may itself contain further delimiter-preceded
sections, which stay in the body — returns the yaml mapping as-is and the
body stripped of leading/trailing whitespace; (2) input starting with the
delimiter but not of that shape fails with the malformed-header-block
error. -/
theorem c7_header_parse :
    (∀ (yaml : String → Except String YVal) (h b : String) (fm : List (String × YVal)),
      infixChars ("\n---\n".data) ((h ++ "\n---").data) = false →
      yaml h = .ok (.dict fm) →
      parse_skill_file yaml ("---\n" ++ h ++ "\n---\n" ++ b) = .ok (fm, pyStripStr b))
    ∧ (∀ (yaml : String → Except String YVal) (content : String),
      "---".data.isPrefixOf content.data = true →
      ¬ headerShaped content →
      parse_skill_file yaml content = .error malformedFrontmatterText) := by
  constructor
  · intro yaml h b fm hinf hyaml
    unfold parse_skill_file
    have hdata : ("---\n" ++ h ++ "\n---\n" ++ b).data =
        "---\n".data ++ (h.data ++ "\n---\n".data ++ b.data) := by
      simp [String.data_append]
    have hmem : '-' ∈ ("---\n" ++ h ++ "\n---\n" ++ b).data := by
      rw [hdata]
      exact List.mem_append.mpr (Or.inl (by decide))
    rw [if_neg (pyStrip_ne_of_mem (by decide) hmem)]
    have hpre : "---".data.isPrefixOf ("---\n" ++ h ++ "\n---\n" ++ b).data = true := by
      rw [hdata]
      apply List.isPrefixOf_iff_prefix.mpr
      exact ⟨'\n' :: (h.data ++ "\n---\n".data ++ b.data), by simp⟩
    rw [hpre]
    simp only [Bool.not_true, Bool.false_eq_true, if_false]
    rw [fmMatch_some h b hinf]
    simp only [hyaml]
  · intro yaml content hpre hsh
    unfold parse_skill_file
    have hmem : '-' ∈ content.data := by
      rcases List.isPrefixOf_iff_prefix.mp hpre with ⟨t, ht⟩
      rw [← ht]
      exact List.mem_append.mpr (Or.inl (by decide))
    rw [if_neg (pyStrip_ne_of_mem (by decide) hmem)]
    rw [hpre]
    simp only [Bool.not_true, Bool.false_eq_true, if_false]
    rw [fmMatch_none hsh]

/-- C7 witness: a concrete document whose body contains a later
delimiter-preceded section (kept in the body), and a concrete
delimiter-starting document with no closing delimiter (malformed). -/
theorem c7_header_parse_witness :
    parse_skill_file yaml7 ("---\n" ++ "name: test" ++ "\n---\n" ++ "Body text\n---\nlater") =
      .ok ([("name", .str "test")], "Body text\n---\nlater")
    ∧ parse_skill_file yaml7 "---\nno closing" = .error malformedFrontmatterText := by
  constructor
  · exact c7_header_parse.1 yaml7 "name: test" "Body text\n---\nlater"
      [("name", .str "test")] (by decide) rfl
  · apply c7_header_parse.2 yaml7 "---\nno closing" (by decide)
    intro hsh
    obtain ⟨h, b, heq⟩ := hsh
    have : infixChars ("\n---\n".data) ("---\nno closing".data) = true := by
      rw [heq]
      have hd : ("---\n" ++ h ++ "\n---\n" ++ b).data =
          ("---\n" ++ h).data ++ "\n---\n".data ++ b.data := by
        simp [String.data_append]
      rw [hd]
      exact listInfix_of_parts _ _ _
    have hfalse : infixChars ("\n---\n".data) ("---\nno closing".data) = false := by decide
    rw [hfalse] at this
    cases this

theorem rglob_filter_all (fs : FS) (d : AbsPath) :
    ((rglob fs d).filter (isFilePath fs)).all
      (fun p => d.isPrefixOf p && isFilePath fs p) = true := by
  rw [List.all_eq_true]
  intro p hp
  rw [List.mem_filter] at hp
  obtain ⟨hp1, hp2⟩ := hp
  unfold rglob at hp1
  rw [List.mem_filter, Bool.and_eq_true] at hp1
  simp [hp1.2.1, hp2]

theorem ite_rglob_filter_all (fs : FS) (d : AbsPath) (c : Prop) [Decidable c] :
    (if c then (rglob fs d).filter (isFilePath fs) else []).all
      (fun p => d.isPrefixOf p && isFilePath fs p) = true := by
  split
  · exact rglob_filter_all fs d
  · rfl

/-- A regular-file entry strictly below `d` is always collected by the
guarded rglob walk (completeness of the walk, given the guard holds). -/
theorem ite_rglob_filter_complete (fs : FS) (d : AbsPath) (c : Prop) [Decidable c]
    (hc : c) : ∀ p ∈ fs.entries.map (fun e => e.1),
      d.isPrefixOf p = true → p ≠ d → isFilePath fs p = true →
      p ∈ (if c then (rglob fs d).filter (isFilePath fs) else []) := by
  intro p hp hpre hne hfile
  rw [if_pos hc, List.mem_filter]
  refine ⟨?_, hfile⟩
  unfold rglob
  rw [List.mem_filter]
  exact ⟨hp, by rw [Bool.and_eq_true]; exact ⟨hpre, bne_iff_ne.mpr hne⟩⟩

/-- C4 (amended): the FileSet always begins with the header+body file,
followed by the files under scripts/, then the files under references/,
then the readme exactly when it exists; the scripts and references portions
hold exactly the entries below those directories that are regular files
after symlink resolution — every entry satisfying the predicate is included
(completeness, whenever the directory exists and is a directory) and
nothing else (soundness); a missing header+body file yields the
missing-required-file error.  (Amendment: the regular-files guarantee holds
for the scripts/references portions only — the header+body file and readme
are included after a bare existence check, see the counterexample.) -/
theorem c4_collect_structure (fs : FS) (skill_dir : AbsPath) :
    match collect_files fs skill_dir with
    | .error e => pathExists fs (skill_dir ++ ["SKILL.md"]) = false
        ∧ e = "SKILL.md not found in " ++ pathStr skill_dir
    | .ok files =>
        pathExists fs (skill_dir ++ ["SKILL.md"]) = true
        ∧ ∃ s r m, files = (skill_dir ++ ["SKILL.md"]) :: (s ++ r ++ m)
            ∧ s.all (fun p => (skill_dir ++ ["scripts"]).isPrefixOf p && isFilePath fs p) = true
            ∧ ((pathExists fs (skill_dir ++ ["scripts"])
                  && isDirPath fs (skill_dir ++ ["scripts"])) = true →
                ∀ p ∈ fs.entries.map (fun e => e.1),
                  (skill_dir ++ ["scripts"]).isPrefixOf p = true →
                  p ≠ skill_dir ++ ["scripts"] →
                  isFilePath fs p = true → p ∈ s)
            ∧ r.all (fun p => (skill_dir ++ ["references"]).isPrefixOf p && isFilePath fs p) = true
            ∧ ((pathExists fs (skill_dir ++ ["references"])
                  && isDirPath fs (skill_dir ++ ["references"])) = true →
                ∀ p ∈ fs.entries.map (fun e => e.1),
                  (skill_dir ++ ["references"]).isPrefixOf p = true →
                  p ≠ skill_dir ++ ["references"] →
                  isFilePath fs p = true → p ∈ r)
            ∧ m = (if pathExists fs (skill_dir ++ ["README.md"]) then
                     [skill_dir ++ ["README.md"]] else []) := by
  unfold collect_files
  by_cases hex : pathExists fs (skill_dir ++ ["SKILL.md"]) = true
  · rw [if_neg (by rw [hex]; simp)]
    refine ⟨hex, _, _, _, rfl, ite_rglob_filter_all fs _ _, ?_, ite_rglob_filter_all fs _ _,
      ?_, rfl⟩
    · intro hc
      exact ite_rglob_filter_complete fs _ _ hc
    · intro hc
      exact ite_rglob_filter_complete fs _ _ hc
  · have hex2 : pathExists fs (skill_dir ++ ["SKILL.md"]) = false := by
      cases h : pathExists fs (skill_dir ++ ["SKILL.md"])
      · rfl
      · exact absurd h hex
    rw [if_pos (by rw [hex2]; rfl)]
    exact ⟨hex2, rfl⟩

theorem uPreB_self_append (t : String) :
    uPreB ("Unexpected frontmatter fields: " ++ t) = true := by
  unfold uPreB
  rw [String.data_append]
  exact List.isPrefixOf_iff_prefix.mpr (List.prefix_append _ _)

theorem mem_ite_singleton {c : Prop} [Decidable c] {x m : String}
    (h : m ∈ (if c then [x] else [])) : m = x := by
  split at h
  · simpa using h
  · cases h

theorem unexpected_msg_shape {fm : List (String × YVal)} {m : String}
    (h : unexpected_fields_msg fm = some m) :
    ∃ t, m = "Unexpected frontmatter fields: " ++ t := by
  unfold unexpected_fields_msg at h
  simp at h
  exact ⟨_, h.2.symm⟩

theorem body_msgs_fst_shape {body : String} {m : String}
    (h : (body_msgs body).1 = some m) : m = emptyBodyText := by
  unfold body_msgs at h
  split at h
  · simp at h
    exact h.symm
  · split at h <;> simp at h

theorem body_msgs_snd_shape {body : String} {m : String}
    (h : (body_msgs body).2 = some m) :
    ∃ t, m = "SKILL.md body is very short (" ++ t := by
  unfold body_msgs at h
  split at h
  · simp at h
  · split at h
    · simp at h
      refine ⟨toString body.length ++ " chars). Consider adding more detailed instructions.", ?_⟩
      rw [← h]
      unfold shortBodyText
      rw [String.append_assoc]
    · simp at h

theorem section_warnings_mem {body : String} {m : String}
    (h : m ∈ section_warnings body) :
    m = "Missing recommended section: when to use this skill"
    ∨ m = "Missing recommended section: step-by-step instructions"
    ∨ m = "Missing recommended section: concrete examples" := by
  unfold section_warnings recommendedSections at h
  rw [List.mem_filterMap] at h
  obtain ⟨kd, hkd, hf⟩ := h
  simp only [List.mem_cons, List.not_mem_nil, or_false] at hkd
  rcases hkd with h1 | h1 | h1 <;>
    (subst h1; split at hf; · injection hf with h2; rw [← h2]; simp
     · cases hf)

theorem tools_warnings_mem {fm : List (String × YVal)} {m : String}
    (h : m ∈ tools_warnings fm) :
    ∃ t, m = "Unknown tools specified: " ++ t := by
  unfold tools_warnings at h
  cases hl : fmLookup fm "tools" with
  | none => rw [hl] at h; cases h
  | some v =>
    rw [hl] at h
    cases v with
    | str s =>
      simp at h
      exact ⟨_, h.2⟩
    | int n => simp at h
    | bool b => simp at h
    | null => simp at h
    | list xs => simp at h
    | dict es => simp at h

theorem model_warning_mem {fm : List (String × YVal)} {l : List String} {m : String}
    (h : model_warning fm = .ok l) (hm : m ∈ l) :
    ∃ t, m = "Unknown model \x27" ++ t := by
  unfold model_warning at h
  cases hl : fmLookup fm "model" with
  | none =>
    rw [hl] at h
    injection h with h2
    rw [← h2] at hm
    cases hm
  | some v =>
    rw [hl] at h
    have key : l = [] ∨ l = ["Unknown model \x27" ++ pyStr v ++
        "\x27. Valid options: haiku, inherit, opus, sonnet"] := by
      cases v with
      | str s =>
        by_cases hv : s = "sonnet" ∨ s = "opus" ∨ s = "haiku" ∨ s = "inherit"
        · left; simp [YVal.hashable, hv] at h; exact h
        · right; simp [YVal.hashable, hv] at h; exact h.symm
      | int n => right; simp [YVal.hashable] at h; exact h.symm
      | bool b => right; simp [YVal.hashable] at h; exact h.symm
      | null => right; simp [YVal.hashable] at h; exact h.symm
      | list xs => right; simp [YVal.hashable] at h
      | dict es => right; simp [YVal.hashable] at h
    rcases key with hl2 | hl2
    · rw [hl2] at hm; cases hm
    · rw [hl2] at hm
      simp only [List.mem_cons, List.not_mem_nil, or_false] at hm
      refine ⟨pyStr v ++ "\x27. Valid options: haiku, inherit, opus, sonnet", ?_⟩
      rw [hm, String.append_assoc]

theorem script_exec_warnings_mem {fs : FS} {ps : List AbsPath} {ws : List String}
    {m : String} (h : script_exec_warnings fs ps = .ok ws) (hm : m ∈ ws) :
    ∃ t, m = "Script " ++ t := by
  induction ps generalizing ws with
  | nil =>
    unfold script_exec_warnings at h
    injection h with h2
    rw [← h2] at hm
    cases hm
  | cons p ps ih =>
    unfold script_exec_warnings at h
    cases he : statExec fs p with
    | error e => rw [he] at h; cases h
    | ok ebit =>
      rw [he] at h
      cases hr : script_exec_warnings fs ps with
      | error e2 => rw [hr] at h; cases h
      | ok ws2 =>
        rw [hr] at h
        injection h with h2
        rw [← h2] at hm
        rcases List.mem_append.mp hm with h1 | h1
        · split at h1
          · cases h1
          · simp only [List.mem_cons, List.not_mem_nil, or_false] at h1
            refine ⟨pathName p ++ (" is not executable. Consider: chmod +x " ++ pathStr p), ?_⟩
            rw [h1, String.append_assoc, String.append_assoc]
        · exact ih hr h1

theorem refsW_mem {fs : FS} {d : AbsPath} {m : String} (h : m ∈ refsW fs d) :
    m = "references/ directory exists but contains no .md files" := by
  unfold refsW at h
  exact mem_ite_singleton h

theorem initW_mem {fs : FS} {d : AbsPath} {m : String} (h : m ∈ initW fs d) :
    m = "scripts/ directory contains Python files but no __init__.py" := by
  unfold initW at h
  exact mem_ite_singleton h

theorem directory_warnings_mem {fs : FS} {win32 : Bool} {d : AbsPath} {ws : List String}
    {m : String} (h : directory_warnings fs win32 d = .ok ws) (hm : m ∈ ws) :
    m = "scripts/ directory contains Python files but no __init__.py"
    ∨ (∃ t, m = "Script " ++ t)
    ∨ m = "references/ directory exists but contains no .md files" := by
  unfold directory_warnings at h
  by_cases hs : pathExists fs (d ++ ["scripts"]) = true
  · rw [if_pos hs] at h
    by_cases hp : (!(globChildren fs (d ++ ["scripts"]) ".py").isEmpty) = true
    · rw [if_pos hp] at h
      cases win32 with
      | true =>
        rw [if_pos rfl] at h
        injection h with h2
        rw [← h2] at hm
        rcases List.mem_append.mp hm with h1 | h1
        · exact Or.inl (initW_mem h1)
        · exact Or.inr (Or.inr (refsW_mem h1))
      | false =>
        rw [if_neg (by simp)] at h
        cases hw : script_exec_warnings fs (globChildren fs (d ++ ["scripts"]) ".py") with
        | error e => rw [hw] at h; cases h
        | ok ws2 =>
          rw [hw] at h
          injection h with h2
          rw [← h2] at hm
          rcases List.mem_append.mp hm with h1 | h1
          · rcases List.mem_append.mp h1 with h3 | h3
            · exact Or.inl (initW_mem h3)
            · exact Or.inr (Or.inl (script_exec_warnings_mem hw h3))
          · exact Or.inr (Or.inr (refsW_mem h1))
    · rw [if_neg hp] at h
      injection h with h2
      rw [← h2] at hm
      exact Or.inr (Or.inr (refsW_mem hm))
  · rw [if_neg hs] at h
    injection h with h2
    rw [← h2] at hm
    exact Or.inr (Or.inr (refsW_mem hm))

theorem esc_all_escalatable (fm : List (String × YVal)) (body : String) :
    ((unexpected_fields_msg fm).toList ++ ((body_msgs body).1).toList).all
      escalatable = true := by
  rw [List.all_eq_true]
  intro m hmem
  rcases List.mem_append.mp hmem with h1 | h2
  · cases hu : unexpected_fields_msg fm with
    | none => rw [hu] at h1; cases h1
    | some u =>
      rw [hu] at h1
      simp only [Option.toList_some, List.mem_cons, List.not_mem_nil, or_false] at h1
      obtain ⟨t, ht⟩ := unexpected_msg_shape hu
      rw [h1, ht]
      unfold escalatable
      rw [uPreB_self_append]
      simp
  · cases hb : (body_msgs body).1 with
    | none => rw [hb] at h2; cases h2
    | some u =>
      rw [hb] at h2
      simp only [Option.toList_some, List.mem_cons, List.not_mem_nil, or_false] at h2
      rw [h2, body_msgs_fst_shape hb]
      decide

theorem warnsAfter_not_esc {fs : FS} {win32 : Bool} {d : AbsPath}
    {fm : List (String × YVal)} {body : String} {modelW dirW : List String}
    (hm : model_warning fm = .ok modelW) (hd : directory_warnings fs win32 d = .ok dirW) :
    ((((body_msgs body).2).toList ++ section_warnings body ++ tools_warnings fm
      ++ modelW ++ dirW).all (fun m => !(escalatable m))) = true := by
  rw [List.all_eq_true]
  intro m hmem
  have key : escalatable m = false := by
    rcases List.mem_append.mp hmem with hmem4 | h5
    · rcases List.mem_append.mp hmem4 with hmem3 | h4
      · rcases List.mem_append.mp hmem3 with hmem2 | h3
        · rcases List.mem_append.mp hmem2 with h1 | h2
          · cases hb : (body_msgs body).2 with
            | none => rw [hb] at h1; cases h1
            | some u =>
              rw [hb] at h1
              simp only [Option.toList_some, List.mem_cons, List.not_mem_nil,
                or_false] at h1
              obtain ⟨t, ht⟩ := body_msgs_snd_shape hb
              rw [h1, ht]
              exact escalatable_append_false _ _ 18 1 (by decide) (by decide) (by decide)
                (by decide) (by decide)
          · rcases section_warnings_mem h2 with h | h | h <;> (rw [h]; decide)
        · obtain ⟨t, ht⟩ := tools_warnings_mem h3
          rw [ht]
          exact escalatable_append_false _ _ 1 3 (by decide) (by decide) (by decide)
            (by decide) (by decide)
      · obtain ⟨t, ht⟩ := model_warning_mem hm h4
        rw [ht]
        exact escalatable_append_false _ _ 1 3 (by decide) (by decide) (by decide)
          (by decide) (by decide)
    · rcases directory_warnings_mem hd h5 with h | ⟨t, ht⟩ | h
      · rw [h]; decide
      · rw [ht]
        exact escalatable_append_false _ _ 2 1 (by decide) (by decide) (by decide)
          (by decide) (by decide)
      · rw [h]; decide
  rw [key]
  rfl

/-- Structural relation between the strict and non-strict runs: either both
raise the same exception, or both return, the non-strict warnings are the
escalatable messages followed by the strict warnings, and the strict errors
are the non-strict errors followed by those same escalatable messages; no
strict-run warning is an escalatable message. -/
theorem validate_skill_strict_split (yaml : String → Except String YVal) (fs : FS)
    (win32 : Bool) (path : AbsPath) :
    (∃ e, validate_skill yaml fs win32 path false = .error e
        ∧ validate_skill yaml fs win32 path true = .error e)
    ∨ (∃ r0 r1 esc,
        validate_skill yaml fs win32 path false = .ok r0
        ∧ validate_skill yaml fs win32 path true = .ok r1
        ∧ r1.errors = r0.errors ++ esc
        ∧ r0.warnings = esc ++ r1.warnings
        ∧ esc.all escalatable = true
        ∧ r1.warnings.all (fun m => !(escalatable m)) = true) := by
  unfold validate_skill
  cases hf : find_skill_file fs path with
  | none =>
    exact Or.inr ⟨_, _, [], rfl, rfl, by simp, by simp, rfl, rfl⟩
  | some skill_file =>
    dsimp only
    cases hr : read_file_safe fs skill_file MAX_FILE_SIZE with
    | error e =>
      exact Or.inr ⟨_, _, [], rfl, rfl, by simp, by simp, rfl, rfl⟩
    | ok content =>
      dsimp only
      cases hp : parse_skill_file yaml content with
      | error e =>
        exact Or.inr ⟨_, _, [], rfl, rfl, by simp, by simp, rfl, rfl⟩
      | ok fmbody =>
        dsimp only
        obtain ⟨fm, body⟩ := fmbody
        dsimp only
        cases hq : required_field_errors fm with
        | error e => exact Or.inl ⟨e, rfl, rfl⟩
        | ok reqErrs =>
          dsimp only
          cases hmw : model_warning fm with
          | error e => exact Or.inl ⟨e, rfl, rfl⟩
          | ok modelW =>
            dsimp only
            cases hdw : directory_warnings fs win32 skill_file.dropLast with
            | error e => exact Or.inl ⟨e, rfl, rfl⟩
            | ok dirW =>
              dsimp only
              refine Or.inr ⟨_, _,
                (unexpected_fields_msg fm).toList ++ ((body_msgs body).1).toList,
                rfl, rfl, ?_, ?_, esc_all_escalatable fm body,
                warnsAfter_not_esc hmw hdw⟩
              · simp [List.append_assoc]
              · simp [List.append_assoc]

theorem validate_skill_name_str_no_raise (s : String) :
    ∃ r, validate_skill_name (.str s) = .ok r := by
  unfold validate_skill_name
  by_cases hf : (YVal.str s).falsy = true
  · rw [if_pos hf]; exact ⟨_, rfl⟩
  · rw [if_neg hf]
    dsimp only [pyLen]
    by_cases h64 : s.length > 64
    · rw [if_pos h64]; exact ⟨_, rfl⟩
    · rw [if_neg h64]
      by_cases hre : (!(nameRegexMatch s)) = true
      · rw [if_pos hre]; exact ⟨_, rfl⟩
      · rw [if_neg hre]
        by_cases hres : (pyInStr "anthropic" s || pyInStr "claude" s) = true
        · rw [if_pos hres]; exact ⟨_, rfl⟩
        · rw [if_neg hres]
          by_cases hxml : (pyInStr "<" s || pyInStr ">" s) = true
          · rw [if_pos hxml]; exact ⟨_, rfl⟩
          · rw [if_neg hxml]; exact ⟨_, rfl⟩

theorem validate_skill_description_str_no_raise (s : String) :
    ∃ r, validate_skill_description (.str s) = .ok r := by
  unfold validate_skill_description
  by_cases hf : (YVal.str s).falsy = true
  · rw [if_pos hf]; exact ⟨_, rfl⟩
  · rw [if_neg hf]
    dsimp only
    by_cases h1 : pyStripStr s = ""
    · rw [if_pos h1]; exact ⟨_, rfl⟩
    · rw [if_neg h1]
      by_cases h2 : s.length > 1024
      · rw [if_pos h2]; exact ⟨_, rfl⟩
      · rw [if_neg h2]
        by_cases h3 : hasXmlTag s.data = true
        · rw [if_pos h3]; exact ⟨_, rfl⟩
        · rw [if_neg h3]; exact ⟨_, rfl⟩

theorem name_field_errors_ok (fm : List (String × YVal))
    (h : strOrAbsent fm "name" = true) : ∃ l, name_field_errors fm = .ok l := by
  unfold name_field_errors
  cases hl : fmLookup fm "name" with
  | none => exact ⟨_, rfl⟩
  | some v =>
    unfold strOrAbsent at h
    rw [hl] at h
    cases v with
    | str s =>
      dsimp only
      obtain ⟨r, hr⟩ := validate_skill_name_str_no_raise s
      rw [hr]
      obtain ⟨valid, msg⟩ := r
      exact ⟨_, rfl⟩
    | int n => exact Bool.noConfusion h
    | bool b => exact Bool.noConfusion h
    | null => exact Bool.noConfusion h
    | list xs => exact Bool.noConfusion h
    | dict es => exact Bool.noConfusion h

theorem desc_field_errors_ok (fm : List (String × YVal))
    (h : strOrAbsent fm "description" = true) : ∃ l, desc_field_errors fm = .ok l := by
  unfold desc_field_errors
  cases hl : fmLookup fm "description" with
  | none => exact ⟨_, rfl⟩
  | some v =>
    unfold strOrAbsent at h
    rw [hl] at h
    cases v with
    | str s =>
      dsimp only
      obtain ⟨r, hr⟩ := validate_skill_description_str_no_raise s
      rw [hr]
      obtain ⟨valid, msg⟩ := r
      exact ⟨_, rfl⟩
    | int n => exact Bool.noConfusion h
    | bool b => exact Bool.noConfusion h
    | null => exact Bool.noConfusion h
    | list xs => exact Bool.noConfusion h
    | dict es => exact Bool.noConfusion h

theorem required_field_errors_ok (fm : List (String × YVal))
    (hn : strOrAbsent fm "name" = true) (hd : strOrAbsent fm "description" = true) :
    ∃ l, required_field_errors fm = .ok l := by
  unfold required_field_errors
  obtain ⟨l1, h1⟩ := name_field_errors_ok fm hn
  rw [h1]
  dsimp only
  obtain ⟨l2, h2⟩ := desc_field_errors_ok fm hd
  rw [h2]
  exact ⟨_, rfl⟩

theorem model_warning_ok (fm : List (String × YVal))
    (h : hashableOrAbsent fm "model" = true) : ∃ l, model_warning fm = .ok l := by
  unfold model_warning
  cases hl : fmLookup fm "model" with
  | none => exact ⟨_, rfl⟩
  | some v =>
    unfold hashableOrAbsent at h
    rw [hl] at h
    cases v with
    | str s =>
      by_cases hv : s = "sonnet" ∨ s = "opus" ∨ s = "haiku" ∨ s = "inherit"
      · refine ⟨[], ?_⟩
        simp [YVal.hashable, hv]
      · refine ⟨["Unknown model \x27" ++ pyStr (.str s)
          ++ "\x27. Valid options: haiku, inherit, opus, sonnet"], ?_⟩
        simp [YVal.hashable, hv]
    | int n => exact ⟨_, rfl⟩
    | bool b => exact ⟨_, rfl⟩
    | null => exact ⟨_, rfl⟩
    | list xs => exact Bool.noConfusion h
    | dict es => exact Bool.noConfusion h

theorem script_exec_warnings_ok (fs : FS) (ps : List AbsPath)
    (h : ps.all (statOkB fs) = true) : ∃ l, script_exec_warnings fs ps = .ok l := by
  induction ps with
  | nil => exact ⟨_, rfl⟩
  | cons p ps ih =>
    rw [List.all_cons, Bool.and_eq_true] at h
    obtain ⟨h1, h2⟩ := h
    unfold script_exec_warnings
    unfold statOkB at h1
    cases he : statExec fs p with
    | error e => rw [he] at h1; exact Bool.noConfusion h1
    | ok b =>
      dsimp only
      obtain ⟨l, hl⟩ := ih h2
      rw [hl]
      exact ⟨_, rfl⟩

theorem directory_warnings_ok (fs : FS) (win32 : Bool) (d : AbsPath)
    (h : (globChildren fs (d ++ ["scripts"]) ".py").all (statOkB fs) = true) :
    ∃ l, directory_warnings fs win32 d = .ok l := by
  unfold directory_warnings
  by_cases hs : pathExists fs (d ++ ["scripts"]) = true
  · rw [if_pos hs]
    by_cases hp : (!(globChildren fs (d ++ ["scripts"]) ".py").isEmpty) = true
    · rw [if_pos hp]
      cases win32 with
      | true => rw [if_pos rfl]; exact ⟨_, rfl⟩
      | false =>
        rw [if_neg (by simp)]
        obtain ⟨l, hl⟩ := script_exec_warnings_ok fs _ h
        rw [hl]
        exact ⟨_, rfl⟩
    · rw [if_neg hp]; exact ⟨_, rfl⟩
  · rw [if_neg hs]; exact ⟨_, rfl⟩

/-- C2 counterexample: for a skill file whose frontmatter is `name: 123`
(PyYAML parses the value as an int), validate_skill raises a TypeError from
`len(name)` instead of returning a ValidationResult, so the claim as stated
(no exception even for unexpected-type name/description values) fails. -/
theorem c2_claim_counterexample :
    validate_skill yaml2 fs2 false ["s"] false =
      .error "object of type \x27int\x27 has no len()" := rfl

/-- C2 (amended): validate_skill returns a ValidationResult and raises no
exception provided the frontmatter name and description values (when
present) are strings, the model value (when present) is hashable, and the
scripts/*.py entries can be stat-ed; environment failures (file not found,
read failure, parse failure) terminate the run early with a result holding
exactly that one error and no warnings. -/
theorem c2_no_raise_and_early_return (yaml : String → Except String YVal) (fs : FS)
    (win32 : Bool) (path : AbsPath) (strict : Bool) :
    (find_skill_file fs path = none →
      validate_skill yaml fs win32 path strict =
        .ok ⟨["SKILL.md not found in " ++ format_path path], []⟩)
    ∧ (∀ sf e, find_skill_file fs path = some sf →
        read_file_safe fs sf MAX_FILE_SIZE = .error e →
        validate_skill yaml fs win32 path strict = .ok ⟨[e], []⟩)
    ∧ (∀ sf content e, find_skill_file fs path = some sf →
        read_file_safe fs sf MAX_FILE_SIZE = .ok content →
        parse_skill_file yaml content = .error e →
        validate_skill yaml fs win32 path strict = .ok ⟨[e], []⟩)
    ∧ (∀ sf content fm body, find_skill_file fs path = some sf →
        read_file_safe fs sf MAX_FILE_SIZE = .ok content →
        parse_skill_file yaml content = .ok (fm, body) →
        strOrAbsent fm "name" = true → strOrAbsent fm "description" = true →
        hashableOrAbsent fm "model" = true →
        (globChildren fs (sf.dropLast ++ ["scripts"]) ".py").all (statOkB fs) = true →
        ∃ res, validate_skill yaml fs win32 path strict = .ok res) := by
  refine ⟨?_, ?_, ?_, ?_⟩
  · intro h
    unfold validate_skill
    rw [h]
  · intro sf e h1 h2
    unfold validate_skill
    rw [h1]
    dsimp only
    rw [h2]
  · intro sf content e h1 h2 h3
    unfold validate_skill
    rw [h1]
    dsimp only
    rw [h2]
    dsimp only
    rw [h3]
  · intro sf content fm body h1 h2 h3 hn hd hm hg
    unfold validate_skill
    rw [h1]
    dsimp only
    rw [h2]
    dsimp only
    rw [h3]
    dsimp only
    obtain ⟨l1, hl1⟩ := required_field_errors_ok fm hn hd
    rw [hl1]
    dsimp only
    obtain ⟨l2, hl2⟩ := model_warning_ok fm hm
    rw [hl2]
    dsimp only
    obtain ⟨l3, hl3⟩ := directory_warnings_ok fs win32 sf.dropLast hg
    rw [hl3]
    dsimp only
    cases strict
    · exact ⟨_, rfl⟩
    · exact ⟨_, rfl⟩

/-- C2 witness: the fully well-typed world `fsA` satisfies all hypotheses of
the last conjunct and validate_skill returns normally. -/
theorem c2_no_raise_witness :
    ∃ res, validate_skill yamlA fsA false ["s"] false = .ok res :=
  (c2_no_raise_and_early_return yamlA fsA false ["s"] false).2.2.2
    ["s", "SKILL.md"] contentA
    [("name", .str "my-skill"), ("description", .str "Does a thing.")] bodyA
    rfl rfl rfl rfl rfl rfl rfl

/-- C3: the strict and non-strict runs produce exactly the same message
texts (the concatenation errors ++ warnings is identical); only escalatable
messages — the unexpected-frontmatter-fields message and the empty-body
message — move from the non-strict warnings to the strict errors, and no
other warning is ever escalated.  When one run raises, both raise the same
exception. -/
theorem c3_strictness_policy (yaml : String → Except String YVal) (fs : FS)
    (win32 : Bool) (path : AbsPath) :
    match validate_skill yaml fs win32 path false,
        validate_skill yaml fs win32 path true with
    | .ok r0, .ok r1 =>
        r0.errors ++ r0.warnings = r1.errors ++ r1.warnings
        ∧ ∃ esc, r1.errors = r0.errors ++ esc
            ∧ r0.warnings = esc ++ r1.warnings
            ∧ esc.all escalatable = true
            ∧ r1.warnings.all (fun m => !(escalatable m)) = true
    | .error e0, .error e1 => e0 = e1
    | _, _ => False := by
  rcases validate_skill_strict_split yaml fs win32 path with
    ⟨e, h0, h1⟩ | ⟨r0, r1, esc, h0, h1, he, hw, ha, hb⟩
  · rw [h0, h1]
  · rw [h0, h1]
    dsimp only
    refine ⟨?_, esc, he, hw, ha, hb⟩
    rw [he, hw]
    simp [List.append_assoc]

/-- C8 counterexample: a skill whose only problem is the missing recognized
field `name` (valid description, substantial body with all recommended
sections, no auxiliary directories) is invalid already in the NON-strict
run, contradicting the claim that the non-strict result is valid with
warnings. -/
theorem c8_claim_counterexample :
    validate_skill yaml84 fs84 false ["s"] false =
      .ok ⟨["Required field \"name\" missing from frontmatter"], []⟩
    ∧ ValidationResult.is_valid
        ⟨["Required field \"name\" missing from frontmatter"], []⟩ = false :=
  ⟨rfl, rfl⟩

/-- C8 (amended): for every skill whose only problem is a header field
outside the recognized set — i.e. the non-strict run returns no errors and
exactly one warning, which is the unexpected-frontmatter-fields message — the
strict run returns the invalid result whose single error is that identical
message text and whose warning list is empty. -/
theorem c8_unexpected_field_escalation (yaml : String → Except String YVal) (fs : FS)
    (win32 : Bool) (path : AbsPath) (r0 : ValidationResult) (m : String)
    (h0 : validate_skill yaml fs win32 path false = .ok r0)
    (he : r0.errors = []) (hw : r0.warnings = [m]) (hu : uPreB m = true) :
    validate_skill yaml fs win32 path true = .ok ⟨[m], []⟩ := by
  rcases validate_skill_strict_split yaml fs win32 path with
    ⟨e, h1, h2⟩ | ⟨r0', r1, esc, h1, h2, herr, hwarn, hesc, hstrict⟩
  · rw [h0] at h1
    cases h1
  · rw [h0] at h1
    injection h1 with h1'
    subst h1'
    rw [he] at herr
    rw [hw] at hwarn
    cases esc with
    | nil =>
      exfalso
      simp only [List.nil_append] at hwarn
      have hm : m ∈ r1.warnings := by rw [← hwarn]; simp
      have hall := List.all_eq_true.mp hstrict m hm
      unfold escalatable at hall
      rw [hu] at hall
      simp at hall
    | cons a esc' =>
      rw [List.cons_append] at hwarn
      injection hwarn with ha htail
      rcases List.append_eq_nil.mp htail.symm with ⟨hesc', hwnil⟩
      rw [h2]
      have hE : r1.errors = [m] := by rw [herr, hesc', ← ha]; rfl
      obtain ⟨E, W⟩ := r1
      simp only at hE hwnil
      rw [hE, hwnil]

/-- C8 witness: in `fs8` (valid name/description, full body, one extra field
`extra`) the non-strict run is valid with exactly the unexpected-fields
warning, and the strict run is invalid with that same text as its only
error. -/
theorem c8_unexpected_field_escalation_witness :
    validate_skill yaml8 fs8 false ["s"] true =
      .ok ⟨["Unexpected frontmatter fields: extra"], []⟩ :=
  c8_unexpected_field_escalation yaml8 fs8 false ["s"]
    ⟨[], ["Unexpected frontmatter fields: extra"]⟩ "Unexpected frontmatter fields: extra"
    rfl rfl rfl rfl

/-- C6 counterexample: calling the Packager on a valid skill with the
unsupported format "tar" does fail with the unknown-format error, but only
after validation has run and the skill file has been read — the event trace
is non-empty, contradicting "before any I/O occurs". -/
theorem c6_claim_counterexample :
    package_skill yamlA fsA false "2026-01-01T00:00:00" ["s"] none "tar" true true =
      (.error "Unknown format: tar", [.validated, .readFile ["s", "SKILL.md"]])
    ∧ ([PEvent.validated, PEvent.readFile ["s", "SKILL.md"]].isEmpty) = false :=
  ⟨rfl, rfl⟩

/-- C6 (amended): for every format selector other than "zip" and
"directory", package_skill never succeeds and writes no output artifact; the
unknown-format error is raised only after the skill is located, validated
(when enabled) and its header file read and parsed. -/
theorem c6_unknown_format_no_output (yaml : String → Except String YVal) (fs : FS)
    (win32 : Bool) (now : String) (skill_path : AbsPath) (output : Option AbsPath)
    (format : String) (validate include_manifest : Bool)
    (h1 : format ≠ "zip") (h2 : format ≠ "directory") :
    Except.isOk (package_skill yaml fs win32 now skill_path output format
        validate include_manifest).1 = false
    ∧ hasWriteEvent (package_skill yaml fs win32 now skill_path output format
        validate include_manifest).2 = false := by
  have hz : ¬ ((format == "zip") = true) := by simp [h1]
  have hdv : ¬ ((format == "directory") = true) := by simp [h2]
  have hwv : hasWriteEvent (if validate then [PEvent.validated] else []) = false := by
    cases validate <;> rfl
  have hwv2 : ∀ sf : AbsPath, hasWriteEvent ((if validate then [PEvent.validated] else [])
      ++ [PEvent.readFile sf]) = false := by
    intro sf
    cases validate <;> rfl
  unfold package_skill
  cases hf : find_skill_file fs skill_path with
  | none => exact ⟨rfl, rfl⟩
  | some skill_file =>
    dsimp only
    cases hvc : package_validate_check yaml fs win32 skill_file.dropLast validate with
    | error e => exact ⟨rfl, hwv⟩
    | ok u =>
      dsimp only
      cases hr : read_file_safe fs skill_file MAX_FILE_SIZE with
      | error e => exact ⟨rfl, hwv⟩
      | ok content =>
        dsimp only
        cases hp : parse_skill_file yaml content with
        | error e => exact ⟨rfl, hwv2 skill_file⟩
        | ok fmb =>
          dsimp only
          obtain ⟨fm, body⟩ := fmb
          dsimp only
          cases hms : package_manifest_step fs now skill_file.dropLast fm
              include_manifest with
          | error e => exact ⟨rfl, hwv2 skill_file⟩
          | ok manifest =>
            dsimp only
            rw [if_neg hz, if_neg hdv]
            exact ⟨rfl, hwv2 skill_file⟩

/-- C6 witness: the concrete run of the counterexample world through the
amended theorem. -/
theorem c6_unknown_format_no_output_witness :
    Except.isOk (package_skill yamlA fsA false "2026-01-01T00:00:00" ["s"] none "tar"
        true true).1 = false
    ∧ hasWriteEvent (package_skill yamlA fsA false "2026-01-01T00:00:00" ["s"] none "tar"
        true true).2 = false :=
  c6_unknown_format_no_output yamlA fsA false "2026-01-01T00:00:00" ["s"] none "tar"
    true true (by decide) (by decide)

/-- C5 witness: the concrete description "A helpful skill" satisfies the
hypotheses and is accepted. -/
theorem c5_descr_valid_witness :
    validate_skill_description (.str "A helpful skill") = .ok (true, "") :=
  c5_descr_valid "A helpful skill" (by decide) (by decide) (by decide)
